import Mathlib

/-!
Verification development for the mdaitest RGB frame pipeline
(`src/controller/rgb_grabber`): a shallow embedding of `RGBGrabber`
(double-buffered capture loop, `rgb_grabber.cpp`) and `FramePublisher`
(ZMQ publish with drop counting, `frame_publisher.cpp`), with theorems
about the store's write-then-publish ordering, read semantics, sequence
numbering, the publish contract, the wire format, start/stop lifecycle
and counter declarations.

Machine-integer conventions: `uint64_t` and `uint32_t` values are
modelled as `Nat` with explicit `% 2^64` / `% 2^32` where the code
stores into a member of that width (the `uint32_t frame_number` field
is assigned from the `uint64_t` counter, so its truncation is
observable); C++ `int` is modelled as `Int` (no arithmetic is performed
on widths/heights, so `int` overflow never arises). Byte buffers
(`std::vector<uint8_t>`) are `List Nat`.
-/

set_option linter.constructorNameAsVariable false

namespace MdaiRGB

/-- Mirrors `struct RGBFrame` (rgb_grabber.hpp): `std::vector<uint8_t> data;
int width; int height; uint64_t timestamp_ms; uint32_t frame_number;`. -/
structure RGBFrame where
  data : List Nat
  width : Int
  height : Int
  timestamp_ms : Nat
  frame_number : Nat
deriving DecidableEq

/-- A default-constructed `RGBFrame`: the vector is empty; the scalar members
are indeterminate in C++ and modelled as 0 (no theorem depends on them). -/
def initFrame : RGBFrame := ⟨[], 0, 0, 0, 0⟩

/-- Program counter of the capture loop thread inside one iteration of
`RGBGrabber::capture_loop` (rgb_grabber.cpp).  `top` is the loop head
(`while (running_)`); the other constructors name the point just after each
store of the encode-success path, carrying the slot index that was loaded
from `write_buffer_` and the values still pending to be stored:

* `afterData i w h ts` — `encode_jpeg` has assigned `frame.data`;
* `afterWidth i h ts` — `frame.width` stored;
* `afterHeight i ts` — `frame.height` stored;
* `afterTs i` — `frame.timestamp_ms` stored;
* `afterNum i` — `frame.frame_number` stored (counter incremented);
* `afterFlip i` — `write_buffer_.store(1 - write_idx)` done, the
  `latest_frame_.store(&frame)` publish is the next operation. -/
inductive PC where
  | top : PC
  | afterData : Nat → Int → Int → Nat → PC
  | afterWidth : Nat → Int → Nat → PC
  | afterHeight : Nat → Nat → PC
  | afterTs : Nat → PC
  | afterNum : Nat → PC
  | afterFlip : Nat → PC
deriving DecidableEq

/-- One observable outcome of a capture-loop iteration, i.e. the behaviour of
the external collaborators (`pipeline_->wait_for_frames`, the color frame,
`encode_jpeg`) plus the external stop request:

* `timeout` — `wait_for_frames` threw `rs2::error` on timeout (caught, 100 ms
  backoff, retry);
* `noColorFrame` — `frames.get_color_frame()` returned an invalid frame
  (`continue`);
* `sourceError` — a hard `rs2::error` (caught, 100 ms backoff, retry);
* `stopRequest` — another thread ran `stop()`, clearing `running_`;
* `captured data w h ts` — a raw color frame of size `w × h` arrived and
  `encode_jpeg` produced the byte sequence `data` (empty on codec failure)
  at clock value `ts`. -/
inductive Event where
  | timeout : Event
  | noColorFrame : Event
  | sourceError : Event
  | stopRequest : Event
  | captured : List Nat → Int → Int → Nat → Event
deriving DecidableEq

/-- State of one `RGBGrabber` (+ its capture thread) as declared in
rgb_grabber.hpp: the two `frame_buffer_` slots, the atomic `write_buffer_`
index, the atomic `latest_frame_` pointer (modelled as the index of the slot
it points to, `none` for `nullptr`), the atomic `frame_count_`, the atomic
`running_` flag, and `start_time_ms_`.  `pc` is the capture thread's position.
Ghost fields (not program data, used to state the claims):
`complete0`/`complete1` record that the slot's five fields were all written by
one completed encode-success cycle since the slot was last begun;
`seq_history` records each value assigned to `frame.frame_number`, in order;
`publish_count` counts `latest_frame_.store` executions; `threads_spawned`,
`pipeline_starts`, `pipeline_stops` count the corresponding external effects
of `start()` / `stop()`. -/
structure GState where
  buf0 : RGBFrame
  buf1 : RGBFrame
  write_buffer : Nat
  latest : Option Nat
  frame_count : Nat
  running : Bool
  pc : PC
  start_time_ms : Nat
  complete0 : Bool
  complete1 : Bool
  seq_history : List Nat
  publish_count : Nat
  threads_spawned : Nat
  pipeline_starts : Nat
  pipeline_stops : Nat
deriving DecidableEq

/-- The grabber state at entry to `capture_loop`, right after a successful
`start()` on a freshly constructed `RGBGrabber`: both slots default
constructed, `write_buffer_ = 0`, `latest_frame_ = nullptr`,
`frame_count_ = 0`, `running_ = true`. -/
def initState : GState :=
  ⟨initFrame, initFrame, 0, none, 0, true, PC.top, 0,
   false, false, [], 0, 1, 1, 0⟩

/-- `frame_buffer_[i]` (index 0 selects slot 0, any other index slot 1; the
program only ever uses 0 and 1). -/
def slot (s : GState) (i : Nat) : RGBFrame :=
  if i = 0 then s.buf0 else s.buf1

/-- Overwrite `frame_buffer_[i]`. -/
def setFrame (s : GState) (i : Nat) (f : RGBFrame) : GState :=
  if i = 0 then {s with buf0 := f} else {s with buf1 := f}

/-- Ghost: whether slot `i` currently holds a fully written frame. -/
def completeAt (s : GState) (i : Nat) : Bool :=
  if i = 0 then s.complete0 else s.complete1

/-- Ghost: set the completeness flag of slot `i`. -/
def setComplete (s : GState) (i : Nat) (b : Bool) : GState :=
  if i = 0 then {s with complete0 := b} else {s with complete1 := b}

/-- Move the capture thread's program counter. -/
def setPC (s : GState) (p : PC) : GState := {s with pc := p}

/-- Effect of `frame.frame_number = frame_count_.fetch_add(1)` on the shared
counter and the ghost history: the counter (a `uint64_t`) is incremented and
the value just assigned to the `uint32_t` field is recorded. -/
def bumpCount (s : GState) : GState :=
  {s with frame_count := (s.frame_count + 1) % 2 ^ 64,
          seq_history := s.seq_history ++ [s.frame_count % 2 ^ 32]}

/-- Small-step transition relation of the capture loop
(`RGBGrabber::capture_loop`, rgb_grabber.cpp lines 82-114), one constructor
per observable memory operation of the loop body, plus the external
`stop()` flag write.  Iterations begin at `pc = top` only while `running_`
is still true (the `while (running_)` test). -/
inductive Step : GState → GState → Prop where
  | timeout (s : GState) (hr : s.running = true) (hpc : s.pc = PC.top) :
      Step s s
  | noColor (s : GState) (hr : s.running = true) (hpc : s.pc = PC.top) :
      Step s s
  | sourceError (s : GState) (hr : s.running = true) (hpc : s.pc = PC.top) :
      Step s s
  | stopFlag (s : GState) :
      Step s {s with running := false}
  | encodeEmpty (s : GState) (hr : s.running = true) (hpc : s.pc = PC.top) :
      Step s (setComplete
        (setFrame s s.write_buffer {slot s s.write_buffer with data := []})
        s.write_buffer false)
  | encodeData (s : GState) (d : List Nat) (w hgt : Int) (ts : Nat)
      (hr : s.running = true) (hpc : s.pc = PC.top) (hd : d ≠ []) :
      Step s (setPC
        (setComplete
          (setFrame s s.write_buffer {slot s s.write_buffer with data := d})
          s.write_buffer false)
        (PC.afterData s.write_buffer w hgt ts))
  | writeWidth (s : GState) (i : Nat) (w hgt : Int) (ts : Nat)
      (hpc : s.pc = PC.afterData i w hgt ts) :
      Step s (setPC (setFrame s i {slot s i with width := w})
        (PC.afterWidth i hgt ts))
  | writeHeight (s : GState) (i : Nat) (hgt : Int) (ts : Nat)
      (hpc : s.pc = PC.afterWidth i hgt ts) :
      Step s (setPC (setFrame s i {slot s i with height := hgt})
        (PC.afterHeight i ts))
  | writeTs (s : GState) (i : Nat) (ts : Nat)
      (hpc : s.pc = PC.afterHeight i ts) :
      Step s (setPC (setFrame s i {slot s i with timestamp_ms := ts % 2 ^ 64})
        (PC.afterTs i))
  | writeNum (s : GState) (i : Nat) (hpc : s.pc = PC.afterTs i) :
      Step s (setPC
        (bumpCount (setComplete
          (setFrame s i {slot s i with frame_number := s.frame_count % 2 ^ 32})
          i true))
        (PC.afterNum i))
  | flipBuffer (s : GState) (i : Nat) (hpc : s.pc = PC.afterNum i) :
      Step s (setPC {s with write_buffer := 1 - i} (PC.afterFlip i))
  | publishLatest (s : GState) (i : Nat) (hpc : s.pc = PC.afterFlip i) :
      Step s (setPC {s with latest := some i,
                            publish_count := s.publish_count + 1} PC.top)

/-- States of the capture loop reachable from `initState`. -/
inductive Reachable : GState → Prop where
  | init : Reachable initState
  | step : ∀ {s t : GState}, Reachable s → Step s t → Reachable t

/-- The slot (if any) that the capture loop is writing, or will write next
before the latest pointer next changes: at the loop head the next write goes
into `frame_buffer_[write_buffer_]`; mid-cycle it is the slot being
assembled; after the buffer flip (`afterFlip`) no further slot write happens
before the publish. -/
def writeTarget : PC → Nat → Option Nat
  | PC.top, wb => some wb
  | PC.afterData i _ _ _, _ => some i
  | PC.afterWidth i _ _, _ => some i
  | PC.afterHeight i _, _ => some i
  | PC.afterTs i, _ => some i
  | PC.afterNum i, _ => some i
  | PC.afterFlip _, _ => none

/-- Per-pc bookkeeping of the inductive invariant: mid-cycle, the slot being
assembled is the loaded `write_buffer_`, is a valid index, and already holds
the (nonempty) encoded data; once the frame number is stored the slot is
complete; after the flip the write buffer points at the other slot. -/
def PCInvAt : PC → GState → Prop
  | PC.top, _ => True
  | PC.afterData i _ _ _, s =>
      i = s.write_buffer ∧ i < 2 ∧ (slot s i).data ≠ []
  | PC.afterWidth i _ _, s =>
      i = s.write_buffer ∧ i < 2 ∧ (slot s i).data ≠ []
  | PC.afterHeight i _, s =>
      i = s.write_buffer ∧ i < 2 ∧ (slot s i).data ≠ []
  | PC.afterTs i, s =>
      i = s.write_buffer ∧ i < 2 ∧ (slot s i).data ≠ []
  | PC.afterNum i, s =>
      i = s.write_buffer ∧ i < 2 ∧ (slot s i).data ≠ [] ∧
        completeAt s i = true
  | PC.afterFlip i, s =>
      i ≠ s.write_buffer ∧ i < 2 ∧ s.write_buffer < 2 ∧
        (slot s i).data ≠ [] ∧ completeAt s i = true

/-- Inductive invariant of the capture loop: the write buffer index is
valid; the slot referenced by `latest_frame_` is a valid index, is never the
write target, holds a complete frame with nonempty encoded data; and the
latest pointer is null exactly as long as nothing was ever published. -/
def Inv (s : GState) : Prop :=
  s.write_buffer < 2 ∧
  (∀ i : Nat, s.latest = some i →
    i < 2 ∧ writeTarget s.pc s.write_buffer ≠ some i ∧
      completeAt s i = true ∧ (slot s i).data ≠ []) ∧
  (s.latest = none ↔ s.publish_count = 0) ∧
  PCInvAt s.pc s

@[simp] theorem slot_setFrame_same (s : GState) (i : Nat) (f : RGBFrame) :
    slot (setFrame s i f) i = f := by
  by_cases h : i = 0 <;> simp [slot, setFrame, h]

theorem slot_setFrame_ne (s : GState) {i j : Nat} (f : RGBFrame)
    (hi : i < 2) (hj : j < 2) (hne : i ≠ j) :
    slot (setFrame s i f) j = slot s j := by
  interval_cases i <;> interval_cases j <;> simp_all [slot, setFrame]

@[simp] theorem completeAt_setFrame (s : GState) (i j : Nat) (f : RGBFrame) :
    completeAt (setFrame s i f) j = completeAt s j := by
  by_cases h : i = 0 <;> by_cases h' : j = 0 <;>
    simp [completeAt, setFrame, h, h']

@[simp] theorem slot_setComplete (s : GState) (i j : Nat) (b : Bool) :
    slot (setComplete s i b) j = slot s j := by
  by_cases h : i = 0 <;> by_cases h' : j = 0 <;>
    simp [slot, setComplete, h, h']

@[simp] theorem completeAt_setComplete_same (s : GState) (i : Nat) (b : Bool) :
    completeAt (setComplete s i b) i = b := by
  by_cases h : i = 0 <;> simp [completeAt, setComplete, h]

theorem completeAt_setComplete_ne (s : GState) {i j : Nat} (b : Bool)
    (hi : i < 2) (hj : j < 2) (hne : i ≠ j) :
    completeAt (setComplete s i b) j = completeAt s j := by
  interval_cases i <;> interval_cases j <;> simp_all [completeAt, setComplete]

@[simp] theorem setFrame_write_buffer (s : GState) (i : Nat) (f : RGBFrame) :
    (setFrame s i f).write_buffer = s.write_buffer := by
  by_cases h : i = 0 <;> simp [setFrame, h]

@[simp] theorem setFrame_latest (s : GState) (i : Nat) (f : RGBFrame) :
    (setFrame s i f).latest = s.latest := by
  by_cases h : i = 0 <;> simp [setFrame, h]

@[simp] theorem setFrame_frame_count (s : GState) (i : Nat) (f : RGBFrame) :
    (setFrame s i f).frame_count = s.frame_count := by
  by_cases h : i = 0 <;> simp [setFrame, h]

@[simp] theorem setFrame_running (s : GState) (i : Nat) (f : RGBFrame) :
    (setFrame s i f).running = s.running := by
  by_cases h : i = 0 <;> simp [setFrame, h]

@[simp] theorem setFrame_pc (s : GState) (i : Nat) (f : RGBFrame) :
    (setFrame s i f).pc = s.pc := by
  by_cases h : i = 0 <;> simp [setFrame, h]

@[simp] theorem setFrame_seq_history (s : GState) (i : Nat) (f : RGBFrame) :
    (setFrame s i f).seq_history = s.seq_history := by
  by_cases h : i = 0 <;> simp [setFrame, h]

@[simp] theorem setFrame_publish_count (s : GState) (i : Nat) (f : RGBFrame) :
    (setFrame s i f).publish_count = s.publish_count := by
  by_cases h : i = 0 <;> simp [setFrame, h]

@[simp] theorem setComplete_write_buffer (s : GState) (i : Nat) (b : Bool) :
    (setComplete s i b).write_buffer = s.write_buffer := by
  by_cases h : i = 0 <;> simp [setComplete, h]

@[simp] theorem setComplete_latest (s : GState) (i : Nat) (b : Bool) :
    (setComplete s i b).latest = s.latest := by
  by_cases h : i = 0 <;> simp [setComplete, h]

@[simp] theorem setComplete_frame_count (s : GState) (i : Nat) (b : Bool) :
    (setComplete s i b).frame_count = s.frame_count := by
  by_cases h : i = 0 <;> simp [setComplete, h]

@[simp] theorem setComplete_running (s : GState) (i : Nat) (b : Bool) :
    (setComplete s i b).running = s.running := by
  by_cases h : i = 0 <;> simp [setComplete, h]

@[simp] theorem setComplete_pc (s : GState) (i : Nat) (b : Bool) :
    (setComplete s i b).pc = s.pc := by
  by_cases h : i = 0 <;> simp [setComplete, h]

@[simp] theorem setComplete_seq_history (s : GState) (i : Nat) (b : Bool) :
    (setComplete s i b).seq_history = s.seq_history := by
  by_cases h : i = 0 <;> simp [setComplete, h]

@[simp] theorem setComplete_publish_count (s : GState) (i : Nat) (b : Bool) :
    (setComplete s i b).publish_count = s.publish_count := by
  by_cases h : i = 0 <;> simp [setComplete, h]

@[simp] theorem setPC_pc (s : GState) (p : PC) : (setPC s p).pc = p := rfl

@[simp] theorem setPC_write_buffer (s : GState) (p : PC) :
    (setPC s p).write_buffer = s.write_buffer := rfl

@[simp] theorem setPC_latest (s : GState) (p : PC) :
    (setPC s p).latest = s.latest := rfl

@[simp] theorem setPC_frame_count (s : GState) (p : PC) :
    (setPC s p).frame_count = s.frame_count := rfl

@[simp] theorem setPC_running (s : GState) (p : PC) :
    (setPC s p).running = s.running := rfl

@[simp] theorem setPC_seq_history (s : GState) (p : PC) :
    (setPC s p).seq_history = s.seq_history := rfl

@[simp] theorem setPC_publish_count (s : GState) (p : PC) :
    (setPC s p).publish_count = s.publish_count := rfl

@[simp] theorem slot_setPC (s : GState) (p : PC) (i : Nat) :
    slot (setPC s p) i = slot s i := rfl

@[simp] theorem completeAt_setPC (s : GState) (p : PC) (i : Nat) :
    completeAt (setPC s p) i = completeAt s i := rfl

@[simp] theorem bumpCount_pc (s : GState) : (bumpCount s).pc = s.pc := rfl

@[simp] theorem bumpCount_write_buffer (s : GState) :
    (bumpCount s).write_buffer = s.write_buffer := rfl

@[simp] theorem bumpCount_latest (s : GState) :
    (bumpCount s).latest = s.latest := rfl

@[simp] theorem bumpCount_running (s : GState) :
    (bumpCount s).running = s.running := rfl

@[simp] theorem bumpCount_publish_count (s : GState) :
    (bumpCount s).publish_count = s.publish_count := rfl

@[simp] theorem bumpCount_frame_count (s : GState) :
    (bumpCount s).frame_count = (s.frame_count + 1) % 2 ^ 64 := rfl

@[simp] theorem bumpCount_seq_history (s : GState) :
    (bumpCount s).seq_history = s.seq_history ++ [s.frame_count % 2 ^ 32] := rfl

@[simp] theorem slot_bumpCount (s : GState) (i : Nat) :
    slot (bumpCount s) i = slot s i := rfl

@[simp] theorem completeAt_bumpCount (s : GState) (i : Nat) :
    completeAt (bumpCount s) i = completeAt s i := rfl

theorem pcInvAt_congr {p : PC} {t s : GState}
    (hwb : t.write_buffer = s.write_buffer)
    (hslot : ∀ i, slot t i = slot s i)
    (hcomp : ∀ i, completeAt t i = completeAt s i) :
    PCInvAt p t ↔ PCInvAt p s := by
  cases p <;> simp [PCInvAt, hwb, hslot, hcomp]

theorem inv_init : Inv initState := by
  refine ⟨by norm_num [initState], ?_, ?_, ?_⟩
  · intro i hi
    simp [initState] at hi
  · simp [initState]
  · simp [initState, PCInvAt]

theorem inv_step {s t : GState} (hs : Inv s) (hst : Step s t) : Inv t := by
  obtain ⟨hwb, hlat, hiff, hpci⟩ := hs
  cases hst with
  | timeout hr hpc => exact ⟨hwb, hlat, hiff, hpci⟩
  | noColor hr hpc => exact ⟨hwb, hlat, hiff, hpci⟩
  | sourceError hr hpc => exact ⟨hwb, hlat, hiff, hpci⟩
  | stopFlag =>
    exact ⟨hwb, hlat, hiff,
      (pcInvAt_congr (t := {s with running := false}) (s := s) rfl
        (fun _ => rfl) (fun _ => rfl)).mpr hpci⟩
  | encodeEmpty hr hpc =>
    refine ⟨by simpa using hwb, ?_, by simpa using hiff, ?_⟩
    · intro j hj
      simp only [setComplete_latest, setFrame_latest] at hj
      obtain ⟨hj2, htgt, hcomp, hdata⟩ := hlat j hj
      rw [hpc] at htgt
      have hne : s.write_buffer ≠ j := by simpa [writeTarget] using htgt
      refine ⟨hj2, ?_, ?_, ?_⟩
      · simp only [setComplete_pc, setFrame_pc, hpc, setComplete_write_buffer,
          setFrame_write_buffer, writeTarget]
        simpa using hne
      · rw [completeAt_setComplete_ne _ _ hwb hj2 hne, completeAt_setFrame]
        exact hcomp
      · rw [slot_setComplete, slot_setFrame_ne _ _ hwb hj2 hne]
        exact hdata
    · simp only [setComplete_pc, setFrame_pc, hpc, PCInvAt]
  | encodeData d w hgt ts hr hpc hd =>
    refine ⟨by simpa using hwb, ?_, by simpa using hiff, ?_⟩
    · intro j hj
      simp only [setPC_latest, setComplete_latest, setFrame_latest] at hj
      obtain ⟨hj2, htgt, hcomp, hdata⟩ := hlat j hj
      rw [hpc] at htgt
      have hne : s.write_buffer ≠ j := by simpa [writeTarget] using htgt
      refine ⟨hj2, ?_, ?_, ?_⟩
      · simp only [setPC_pc, writeTarget]
        simpa using hne
      · rw [completeAt_setPC, completeAt_setComplete_ne _ _ hwb hj2 hne,
          completeAt_setFrame]
        exact hcomp
      · rw [slot_setPC, slot_setComplete, slot_setFrame_ne _ _ hwb hj2 hne]
        exact hdata
    · simp only [setPC_pc, PCInvAt]
      refine ⟨by simp, hwb, ?_⟩
      rw [slot_setPC, slot_setComplete, slot_setFrame_same]
      simpa using hd
  | writeWidth i w hgt ts hpc =>
    rw [hpc] at hpci
    simp only [PCInvAt] at hpci
    obtain ⟨hieq, hi2, hdat⟩ := hpci
    refine ⟨by simpa using hwb, ?_, by simpa using hiff, ?_⟩
    · intro j hj
      simp only [setPC_latest, setFrame_latest] at hj
      obtain ⟨hj2, htgt, hcomp, hdata⟩ := hlat j hj
      rw [hpc] at htgt
      have hne : i ≠ j := by simpa [writeTarget] using htgt
      refine ⟨hj2, ?_, ?_, ?_⟩
      · simp only [setPC_pc, writeTarget]
        simpa using hne
      · rw [completeAt_setPC, completeAt_setFrame]
        exact hcomp
      · rw [slot_setPC, slot_setFrame_ne _ _ hi2 hj2 hne]
        exact hdata
    · simp only [setPC_pc, PCInvAt]
      refine ⟨by simpa using hieq, hi2, ?_⟩
      rw [slot_setPC, slot_setFrame_same]
      simpa using hdat
  | writeHeight i hgt ts hpc =>
    rw [hpc] at hpci
    simp only [PCInvAt] at hpci
    obtain ⟨hieq, hi2, hdat⟩ := hpci
    refine ⟨by simpa using hwb, ?_, by simpa using hiff, ?_⟩
    · intro j hj
      simp only [setPC_latest, setFrame_latest] at hj
      obtain ⟨hj2, htgt, hcomp, hdata⟩ := hlat j hj
      rw [hpc] at htgt
      have hne : i ≠ j := by simpa [writeTarget] using htgt
      refine ⟨hj2, ?_, ?_, ?_⟩
      · simp only [setPC_pc, writeTarget]
        simpa using hne
      · rw [completeAt_setPC, completeAt_setFrame]
        exact hcomp
      · rw [slot_setPC, slot_setFrame_ne _ _ hi2 hj2 hne]
        exact hdata
    · simp only [setPC_pc, PCInvAt]
      refine ⟨by simpa using hieq, hi2, ?_⟩
      rw [slot_setPC, slot_setFrame_same]
      simpa using hdat
  | writeTs i ts hpc =>
    rw [hpc] at hpci
    simp only [PCInvAt] at hpci
    obtain ⟨hieq, hi2, hdat⟩ := hpci
    refine ⟨by simpa using hwb, ?_, by simpa using hiff, ?_⟩
    · intro j hj
      simp only [setPC_latest, setFrame_latest] at hj
      obtain ⟨hj2, htgt, hcomp, hdata⟩ := hlat j hj
      rw [hpc] at htgt
      have hne : i ≠ j := by simpa [writeTarget] using htgt
      refine ⟨hj2, ?_, ?_, ?_⟩
      · simp only [setPC_pc, writeTarget]
        simpa using hne
      · rw [completeAt_setPC, completeAt_setFrame]
        exact hcomp
      · rw [slot_setPC, slot_setFrame_ne _ _ hi2 hj2 hne]
        exact hdata
    · simp only [setPC_pc, PCInvAt]
      refine ⟨by simpa using hieq, hi2, ?_⟩
      rw [slot_setPC, slot_setFrame_same]
      simpa using hdat
  | writeNum i hpc =>
    rw [hpc] at hpci
    simp only [PCInvAt] at hpci
    obtain ⟨hieq, hi2, hdat⟩ := hpci
    refine ⟨by simpa using hwb, ?_, by simpa using hiff, ?_⟩
    · intro j hj
      simp only [setPC_latest, bumpCount_latest, setComplete_latest,
        setFrame_latest] at hj
      obtain ⟨hj2, htgt, hcomp, hdata⟩ := hlat j hj
      rw [hpc] at htgt
      have hne : i ≠ j := by simpa [writeTarget] using htgt
      refine ⟨hj2, ?_, ?_, ?_⟩
      · simp only [setPC_pc, writeTarget]
        simpa using hne
      · rw [completeAt_setPC, completeAt_bumpCount,
          completeAt_setComplete_ne _ _ hi2 hj2 hne, completeAt_setFrame]
        exact hcomp
      · rw [slot_setPC, slot_bumpCount, slot_setComplete,
          slot_setFrame_ne _ _ hi2 hj2 hne]
        exact hdata
    · simp only [setPC_pc, PCInvAt]
      refine ⟨by simpa using hieq, hi2, ?_, ?_⟩
      · rw [slot_setPC, slot_bumpCount, slot_setComplete, slot_setFrame_same]
        simpa using hdat
      · rw [completeAt_setPC, completeAt_bumpCount, completeAt_setComplete_same]
  | flipBuffer i hpc =>
    rw [hpc] at hpci
    simp only [PCInvAt] at hpci
    obtain ⟨hieq, hi2, hdat, hcomp⟩ := hpci
    refine ⟨?_, ?_, by simpa using hiff, ?_⟩
    · simp only [setPC_write_buffer]
      omega
    · intro j hj
      simp only [setPC_latest] at hj
      obtain ⟨hj2, htgt, hcomp', hdata'⟩ := hlat j hj
      refine ⟨hj2, ?_, ?_, ?_⟩
      · simp [setPC_pc, writeTarget]
      · exact hcomp'
      · exact hdata'
    · simp only [setPC_pc, PCInvAt]
      refine ⟨?_, hi2, ?_, ?_, ?_⟩
      · simp only [setPC_write_buffer]
        omega
      · simp only [setPC_write_buffer]
        omega
      · exact hdat
      · exact hcomp
  | publishLatest i hpc =>
    rw [hpc] at hpci
    simp only [PCInvAt] at hpci
    obtain ⟨hne, hi2, hwb2, hdat, hcomp⟩ := hpci
    refine ⟨by simpa using hwb, ?_, by simp, ?_⟩
    · intro j hj
      have hij : i = j := by simpa using hj
      subst hij
      refine ⟨hi2, ?_, ?_, ?_⟩
      · simp only [setPC_pc, writeTarget, setPC_write_buffer]
        simpa using fun hc => hne hc.symm
      · exact hcomp
      · exact hdat
    · simp only [setPC_pc, PCInvAt]

theorem reachable_inv {s : GState} (h : Reachable s) : Inv s := by
  induction h with
  | init => exact inv_init
  | step _ hst ih => exact inv_step ih hst

/-- C1: double-buffer write-then-publish invariant.  In every reachable state
of the capture loop, the slot referenced by `latest_frame_` is never the slot
the loop is writing or about to write (`writeTarget` is `frame_buffer_
[write_buffer_]` at the loop head and the slot under assembly mid-cycle — the
only states in which a slot store is pending), and since `latest_frame_.store`
is reachable only through the program-order chain data → width → height →
timestamp → frame number → buffer flip, the published slot always carries the
completeness ghost flag (set exactly when the fifth field store of a cycle
lands) and a nonempty encoded payload: a reader sampling the pointer sees a
fully-formed frame.  Second part, per step: the only step of the machine
that changes the latest pointer is the publish after the buffer flip, it
publishes a slot that is already complete with nonempty data, and it writes
nothing into that slot. -/
theorem C1_write_then_publish :
    (∀ s : GState, Reachable s → ∀ i : Nat, s.latest = some i →
      writeTarget s.pc s.write_buffer ≠ some i ∧
      completeAt s i = true ∧ (slot s i).data ≠ []) ∧
    (∀ s t : GState, Reachable s → Step s t → t.latest ≠ s.latest →
      ∃ i : Nat, s.pc = PC.afterFlip i ∧ t.latest = some i ∧
        completeAt s i = true ∧ (slot s i).data ≠ [] ∧ slot t i = slot s i) := by
  constructor
  · intro s hs i hi
    obtain ⟨-, hlat, -, -⟩ := reachable_inv hs
    obtain ⟨-, h1, h2, h3⟩ := hlat i hi
    exact ⟨h1, h2, h3⟩
  · intro s t hs hstep hne
    cases hstep with
    | timeout hr hpc => exact absurd rfl hne
    | noColor hr hpc => exact absurd rfl hne
    | sourceError hr hpc => exact absurd rfl hne
    | stopFlag => exact absurd rfl hne
    | encodeEmpty hr hpc => exact absurd (by simp) hne
    | encodeData d w hgt ts hr hpc hd => exact absurd (by simp) hne
    | writeWidth i w hgt ts hpc => exact absurd (by simp) hne
    | writeHeight i hgt ts hpc => exact absurd (by simp) hne
    | writeTs i ts hpc => exact absurd (by simp) hne
    | writeNum i hpc => exact absurd (by simp) hne
    | flipBuffer i hpc => exact absurd (by simp) hne
    | publishLatest i hpc =>
      obtain ⟨-, -, -, hpci⟩ := reachable_inv hs
      rw [hpc] at hpci
      simp only [PCInvAt] at hpci
      obtain ⟨-, -, -, hdat, hcomp⟩ := hpci
      exact ⟨i, hpc, rfl, hcomp, hdat, rfl⟩

/-- The state of the capture loop after one full successful iteration
(raw frame 640×480, encoded bytes `[1]`, clock 5) from `initState`:
slot 0 holds the frame, the write buffer has moved to slot 1, and the
latest pointer references slot 0. -/
def oneIterState : GState :=
  ⟨⟨[1], 640, 480, 5, 0⟩, initFrame, 1, some 0, 1, true, PC.top, 0,
   true, false, [0], 1, 1, 1, 0⟩

theorem C1_write_then_publish_witness :
    Reachable oneIterState ∧
      (writeTarget oneIterState.pc oneIterState.write_buffer ≠ some 0 ∧
        completeAt oneIterState 0 = true ∧ (slot oneIterState 0).data ≠ []) := by
  have hreach : Reachable oneIterState := by
    have h1 := Reachable.init.step
      (Step.encodeData initState [1] 640 480 5 rfl rfl (by decide))
    have h2 := h1.step (Step.writeWidth _ 0 640 480 5 (by decide))
    have h3 := h2.step (Step.writeHeight _ 0 480 5 (by decide))
    have h4 := h3.step (Step.writeTs _ 0 5 (by decide))
    have h5 := h4.step (Step.writeNum _ 0 (by decide))
    have h6 := h5.step (Step.flipBuffer _ 0 (by decide))
    have h7 := h6.step (Step.publishLatest _ 0 (by decide))
    convert h7 using 1
  exact ⟨hreach, C1_write_then_publish.1 oneIterState hreach 0 (by decide)⟩

/-- `RGBGrabber::get_latest_frame` (rgb_grabber.cpp lines 166-175): load
`latest_frame_`; if it is null return false (modelled as `none`), otherwise
return a copy of the referenced frame. -/
def getLatestFrame (s : GState) : Option RGBFrame :=
  match s.latest with
  | none => none
  | some i => some (slot s i)

/-- Tail of the encode-success path of one capture iteration, applied after
the slot fields are stored: `frame_count_` advances by one
(`fetch_add(1)`; the old value, already truncated to 32 bits, is appended to
the ghost history), `write_buffer_` flips to `1 - write_idx`, and slot `i`
becomes `latest_frame_`. -/
def bumpPublish (s : GState) (i : Nat) : GState :=
  {s with frame_count := (s.frame_count + 1) % 2 ^ 64,
          write_buffer := 1 - i,
          latest := some i,
          seq_history := s.seq_history ++ [s.frame_count % 2 ^ 32],
          publish_count := s.publish_count + 1}

@[simp] theorem slot_bumpPublish (s : GState) (i j : Nat) :
    slot (bumpPublish s i) j = slot s j := rfl

@[simp] theorem completeAt_bumpPublish (s : GState) (i j : Nat) :
    completeAt (bumpPublish s i) j = completeAt s j := rfl

@[simp] theorem bumpPublish_latest (s : GState) (i : Nat) :
    (bumpPublish s i).latest = some i := rfl

@[simp] theorem bumpPublish_frame_count (s : GState) (i : Nat) :
    (bumpPublish s i).frame_count = (s.frame_count + 1) % 2 ^ 64 := rfl

@[simp] theorem bumpPublish_write_buffer (s : GState) (i : Nat) :
    (bumpPublish s i).write_buffer = 1 - i := rfl

@[simp] theorem bumpPublish_running (s : GState) (i : Nat) :
    (bumpPublish s i).running = s.running := rfl

@[simp] theorem bumpPublish_pc (s : GState) (i : Nat) :
    (bumpPublish s i).pc = s.pc := rfl

@[simp] theorem bumpPublish_seq_history (s : GState) (i : Nat) :
    (bumpPublish s i).seq_history = s.seq_history ++ [s.frame_count % 2 ^ 32] := rfl

@[simp] theorem bumpPublish_publish_count (s : GState) (i : Nat) :
    (bumpPublish s i).publish_count = s.publish_count + 1 := rfl

/-- Big-step effect of one whole iteration of `RGBGrabber::capture_loop` on
the grabber state, given the iteration's `Event`.  On `captured d w hgt ts`,
`encode_jpeg` first assigns `frame.data := d` (the code's `output.assign`
runs before the emptiness test, so it happens even when `d` is empty); if
`d` is empty (`encode_jpeg` returned false) nothing else happens; otherwise
the remaining fields are stored and `bumpPublish` performs the counter
increment, buffer flip and publish. -/
def captureIter (s : GState) (e : Event) : GState :=
  match e with
  | Event.timeout => s
  | Event.noColorFrame => s
  | Event.sourceError => s
  | Event.stopRequest => {s with running := false}
  | Event.captured d w hgt ts =>
      let i := s.write_buffer
      if d.isEmpty then
        setComplete (setFrame s i {slot s i with data := d}) i false
      else
        bumpPublish
          (setComplete
            (setFrame s i ⟨d, w, hgt, ts % 2 ^ 64, s.frame_count % 2 ^ 32⟩)
            i true) i

/-- Run the capture loop body over a finite trace of iteration events. -/
def runEvents (s : GState) (es : List Event) : GState :=
  es.foldl captureIter s

/-- Whether an iteration event is a successfully encoded frame (a captured
raw frame for which `encode_jpeg` produced nonempty output). -/
def isSuccess : Event → Bool
  | Event.captured d _ _ _ => !d.isEmpty
  | _ => false

/-- Number of successfully encoded frames in a trace. -/
def countSuccess : List Event → Nat
  | [] => 0
  | e :: es => (if isSuccess e then 1 else 0) + countSuccess es

theorem runEvents_nil (s : GState) : runEvents s [] = s := rfl

theorem runEvents_cons (s : GState) (e : Event) (es : List Event) :
    runEvents s (e :: es) = runEvents (captureIter s e) es := rfl

theorem runEvents_append (s : GState) (es1 es2 : List Event) :
    runEvents s (es1 ++ es2) = runEvents (runEvents s es1) es2 := by
  simp [runEvents]

theorem captureIter_frame_count (s : GState) (e : Event) :
    (captureIter s e).frame_count =
      if isSuccess e then (s.frame_count + 1) % 2 ^ 64 else s.frame_count := by
  cases e with
  | captured d w hgt ts =>
    by_cases hd : d.isEmpty <;> simp [captureIter, isSuccess, hd]
  | _ => simp [captureIter, isSuccess]

theorem captureIter_seq_history (s : GState) (e : Event) :
    (captureIter s e).seq_history =
      if isSuccess e then s.seq_history ++ [s.frame_count % 2 ^ 32]
      else s.seq_history := by
  cases e with
  | captured d w hgt ts =>
    by_cases hd : d.isEmpty <;> simp [captureIter, isSuccess, hd]
  | _ => simp [captureIter, isSuccess]

theorem captureIter_running (s : GState) (e : Event) (hne : e ≠ Event.stopRequest) :
    (captureIter s e).running = s.running := by
  cases e with
  | captured d w hgt ts =>
    by_cases hd : d.isEmpty <;> simp [captureIter, hd]
  | stopRequest => exact absurd rfl hne
  | _ => simp [captureIter]

theorem captureIter_latest_fail (s : GState) (w hgt : Int) (ts : Nat) :
    (captureIter s (Event.captured [] w hgt ts)).latest = s.latest := by
  simp [captureIter]

theorem getLatest_captureIter_success (s : GState) (d : List Nat)
    (w hgt : Int) (ts : Nat) (hd : d ≠ []) :
    getLatestFrame (captureIter s (Event.captured d w hgt ts)) =
      some ⟨d, w, hgt, ts % 2 ^ 64, s.frame_count % 2 ^ 32⟩ := by
  have hemp : d.isEmpty = false := by
    simpa [List.isEmpty_iff] using hd
  simp [captureIter, hemp, getLatestFrame]

/-- Coherence of the two embeddings of `capture_loop`: from any loop-head
state while running, one whole big-step iteration (`captureIter`) is the
composition of small machine steps — so the big-step results used for the
read/sequence theorems are reachable states of the small-step machine. -/
theorem captureIter_steps (s : GState) (e : Event)
    (hr : s.running = true) (hpc : s.pc = PC.top) :
    Relation.ReflTransGen Step s (captureIter s e) := by
  cases e with
  | timeout => exact Relation.ReflTransGen.single (Step.timeout s hr hpc)
  | noColorFrame => exact Relation.ReflTransGen.single (Step.noColor s hr hpc)
  | sourceError =>
    exact Relation.ReflTransGen.single (Step.sourceError s hr hpc)
  | stopRequest => exact Relation.ReflTransGen.single (Step.stopFlag s)
  | captured d w hgt ts =>
    by_cases hd : d.isEmpty = true
    · have hdnil : d = [] := List.isEmpty_iff.mp hd
      subst hdnil
      have hiter : captureIter s (Event.captured [] w hgt ts) =
          setComplete (setFrame s s.write_buffer
            {slot s s.write_buffer with data := []}) s.write_buffer false := by
        simp [captureIter]
      rw [hiter]
      exact Relation.ReflTransGen.single (Step.encodeEmpty s hr hpc)
    · have hd' : d ≠ [] := by simpa [List.isEmpty_iff] using hd
      have hiter : captureIter s (Event.captured d w hgt ts) =
          bumpPublish (setComplete (setFrame s s.write_buffer
              ⟨d, w, hgt, ts % 2 ^ 64, s.frame_count % 2 ^ 32⟩)
            s.write_buffer true) s.write_buffer := by
        simp [captureIter, hd]
      rw [hiter]
      refine Relation.ReflTransGen.head
        (Step.encodeData s d w hgt ts hr hpc hd') ?_
      refine Relation.ReflTransGen.head
        (Step.writeWidth _ s.write_buffer w hgt ts rfl) ?_
      refine Relation.ReflTransGen.head
        (Step.writeHeight _ s.write_buffer hgt ts rfl) ?_
      refine Relation.ReflTransGen.head
        (Step.writeTs _ s.write_buffer ts rfl) ?_
      refine Relation.ReflTransGen.head
        (Step.writeNum _ s.write_buffer rfl) ?_
      refine Relation.ReflTransGen.head
        (Step.flipBuffer _ s.write_buffer rfl) ?_
      refine Relation.ReflTransGen.head
        (Step.publishLatest _ s.write_buffer rfl) ?_
      by_cases hwb : s.write_buffer = 0 <;>
        · simp [setFrame, setComplete, setPC, bumpPublish, bumpCount, slot,
            hwb, hpc]
          exact Relation.ReflTransGen.refl

/-- Reachability is closed under chains of steps. -/
theorem reachable_of_steps {a b : GState} (h : Reachable a)
    (hs : Relation.ReflTransGen Step a b) : Reachable b := by
  induction hs with
  | refl => exact h
  | tail _ hstep ih => exact ih.step hstep

/-- Big-step reachability: applying one capture iteration to a reachable
loop-head state while running yields a reachable state. -/
theorem reachable_captureIter {s : GState} (h : Reachable s) (e : Event)
    (hr : s.running = true) (hpc : s.pc = PC.top) :
    Reachable (captureIter s e) :=
  reachable_of_steps h (captureIter_steps s e hr hpc)

theorem runEvents_frame_count :
    ∀ (es : List Event) (s : GState), s.frame_count < 2 ^ 64 →
      (runEvents s es).frame_count = (s.frame_count + countSuccess es) % 2 ^ 64 ∧
        (runEvents s es).frame_count < 2 ^ 64 := by
  intro es
  induction es with
  | nil =>
    intro s hs
    simpa [runEvents, countSuccess] using ⟨(Nat.mod_eq_of_lt hs).symm, hs⟩
  | cons e es ih =>
    intro s hs
    rw [runEvents_cons]
    by_cases hsucc : isSuccess e = true
    · have hfc : (captureIter s e).frame_count = (s.frame_count + 1) % 2 ^ 64 := by
        rw [captureIter_frame_count, if_pos hsucc]
      have hlt : (captureIter s e).frame_count < 2 ^ 64 := by
        rw [hfc]; exact Nat.mod_lt _ (by norm_num)
      obtain ⟨h1, h2⟩ := ih (captureIter s e) hlt
      refine ⟨?_, h2⟩
      rw [h1, hfc, Nat.mod_add_mod]
      have hcnt : countSuccess (e :: es) = 1 + countSuccess es := by
        simp [countSuccess, hsucc]
      rw [hcnt]
      congr 1
      omega
    · have hfc : (captureIter s e).frame_count = s.frame_count := by
        rw [captureIter_frame_count, if_neg hsucc]
      obtain ⟨h1, h2⟩ := ih (captureIter s e) (by rw [hfc]; exact hs)
      refine ⟨?_, h2⟩
      rw [h1, hfc]
      have hcnt : countSuccess (e :: es) = countSuccess es := by
        simp [countSuccess, hsucc]
      rw [hcnt]

theorem runEvents_seq_history :
    ∀ (es : List Event) (s : GState), s.frame_count < 2 ^ 64 →
      (runEvents s es).seq_history =
        s.seq_history ++ (List.range (countSuccess es)).map
          (fun j => (s.frame_count + j) % 2 ^ 64 % 2 ^ 32) := by
  intro es
  induction es with
  | nil =>
    intro s hs
    simp [runEvents, countSuccess]
  | cons e es ih =>
    intro s hs
    rw [runEvents_cons]
    by_cases hsucc : isSuccess e = true
    · have hfc : (captureIter s e).frame_count = (s.frame_count + 1) % 2 ^ 64 := by
        rw [captureIter_frame_count, if_pos hsucc]
      have hseq : (captureIter s e).seq_history =
          s.seq_history ++ [s.frame_count % 2 ^ 32] := by
        rw [captureIter_seq_history, if_pos hsucc]
      have hlt : (captureIter s e).frame_count < 2 ^ 64 := by
        rw [hfc]; exact Nat.mod_lt _ (by norm_num)
      rw [ih (captureIter s e) hlt, hseq, hfc]
      have hcnt : countSuccess (e :: es) = countSuccess es + 1 := by
        simp [countSuccess, hsucc, Nat.add_comm]
      rw [hcnt, List.range_succ_eq_map, List.append_assoc]
      congr 1
      simp only [List.map_cons, List.map_map, List.singleton_append]
      congr 1
      · rw [Nat.add_zero, Nat.mod_eq_of_lt hs]
      · apply List.map_congr_left
        intro j _
        simp only [Function.comp_apply, Nat.mod_add_mod]
        congr 2
        omega
    · have hfc : (captureIter s e).frame_count = s.frame_count := by
        rw [captureIter_frame_count, if_neg hsucc]
      have hseq : (captureIter s e).seq_history = s.seq_history := by
        rw [captureIter_seq_history, if_neg hsucc]
      rw [ih (captureIter s e) (by rw [hfc]; exact hs), hseq, hfc]
      have hcnt : countSuccess (e :: es) = countSuccess es := by
        simp [countSuccess, hsucc]
      rw [hcnt]

theorem seqHistory_from_init (es : List Event) :
    (runEvents initState es).seq_history =
      (List.range (countSuccess es)).map (fun j => j % 2 ^ 32) := by
  have hdvd : (2 : Nat) ^ 32 ∣ 2 ^ 64 := by norm_num
  have h := runEvents_seq_history es initState (by norm_num [initState])
  rw [h]
  simp only [initState, List.nil_append, Nat.zero_add]
  apply List.map_congr_left
  intro j _
  rw [Nat.mod_mod_of_dvd j hdvd]

/-- One successful raw-capture iteration input: the encoded bytes (nonempty),
the raw frame's width and height, and the clock value at encode time. -/
structure CapturedInput where
  data : List Nat
  w : Int
  hgt : Int
  ts : Nat
deriving DecidableEq

/-- The capture-loop event corresponding to a raw-capture input. -/
def CapturedInput.toEvent (a : CapturedInput) : Event :=
  Event.captured a.data a.w a.hgt a.ts

theorem countSuccess_allSuccess (l : List CapturedInput)
    (h : ∀ a ∈ l, a.data ≠ []) :
    countSuccess (l.map CapturedInput.toEvent) = l.length := by
  induction l with
  | nil => simp [countSuccess]
  | cons a l ih =>
    have ha : a.data ≠ [] := h a (by simp)
    have hs : isSuccess (CapturedInput.toEvent a) = true := by
      simp [CapturedInput.toEvent, isSuccess, List.isEmpty_iff, ha]
    simp [countSuccess, hs, ih (fun b hb => h b (by simp [hb])), Nat.add_comm]

theorem getLatestFrame_eq_none (s : GState) :
    getLatestFrame s = none ↔ s.latest = none := by
  cases h : s.latest <;> simp [getLatestFrame, h]

/-- C2: `get_latest_frame` semantics.  First part: in every reachable state
of the capture loop, `get_latest_frame` reports "none" (returns false)
exactly when no frame has ever been published to the store
(`latest_frame_.store` never executed).  Second part, most-recent-wins:
after any nonempty sequence of N successful encode iterations from the
initial state, with no read in between, `get_latest_frame` returns exactly
the N-th (last-written) frame — its data, width, height and timestamp are
the last input's, and its frame number is N-1 (truncated to 32 bits). -/
theorem C2_read_latest_semantics :
    (∀ s : GState, Reachable s →
      (getLatestFrame s = none ↔ s.publish_count = 0)) ∧
    (∀ (ins : List CapturedInput) (hne : ins ≠ []),
      (∀ a ∈ ins, a.data ≠ []) →
      getLatestFrame (runEvents initState (ins.map CapturedInput.toEvent)) =
        some ⟨(ins.getLast hne).data, (ins.getLast hne).w,
              (ins.getLast hne).hgt, (ins.getLast hne).ts % 2 ^ 64,
              (ins.length - 1) % 2 ^ 32⟩) := by
  constructor
  · intro s hs
    obtain ⟨-, -, hiff, -⟩ := reachable_inv hs
    rw [getLatestFrame_eq_none]
    exact hiff
  · intro ins hne hdat
    have hsplit : ins.dropLast ++ [ins.getLast hne] = ins :=
      List.dropLast_append_getLast hne
    conv_lhs => rw [← hsplit]
    rw [List.map_append, runEvents_append]
    simp only [List.map_cons, List.map_nil]
    rw [runEvents_cons, runEvents_nil]
    simp only [CapturedInput.toEvent]
    have hlast : (ins.getLast hne).data ≠ [] := hdat _ (List.getLast_mem hne)
    rw [getLatest_captureIter_success _ _ _ _ _ hlast]
    have hfc := (runEvents_frame_count (ins.dropLast.map CapturedInput.toEvent)
      initState (by norm_num [initState])).1
    have hcnt : countSuccess (ins.dropLast.map CapturedInput.toEvent) =
        ins.dropLast.length :=
      countSuccess_allSuccess _
        (fun a ha => hdat a ((List.dropLast_sublist ins).subset ha))
    have hlen : ins.dropLast.length = ins.length - 1 := List.length_dropLast ins
    rw [hfc, hcnt, hlen]
    have hmod : (initState.frame_count + (ins.length - 1)) % 2 ^ 64 % 2 ^ 32 =
        (ins.length - 1) % 2 ^ 32 := by
      simp only [initState]
      rw [Nat.zero_add, Nat.mod_mod_of_dvd _ (by norm_num : (2 : Nat) ^ 32 ∣ 2 ^ 64)]
    rw [hmod]

theorem C2_read_latest_semantics_witness :
    (getLatestFrame initState = none ↔ initState.publish_count = 0) ∧
    getLatestFrame (runEvents initState
        ([(⟨[5], 2, 3, 9⟩ : CapturedInput)].map CapturedInput.toEvent)) =
      some ⟨[5], 2, 3, 9, 0⟩ := by
  constructor
  · exact C2_read_latest_semantics.1 initState Reachable.init
  · exact C2_read_latest_semantics.2 [⟨[5], 2, 3, 9⟩] (by decide) (by decide)

theorem countSuccess_replicate (n : Nat) :
    countSuccess (List.replicate n (Event.captured [1] 640 480 0)) = n := by
  induction n with
  | zero => simp [countSuccess]
  | succ n ih =>
    simp [List.replicate_succ, countSuccess, isSuccess, ih, Nat.add_comm]

/-- C3 counterexample: the claim as stated — sequence numbers of
successfully encoded frames are strictly increasing in every session — fails
on the code, because `frame_number` is a `uint32_t` assigned from the
`uint64_t` counter: in a session of 2^32 + 1 successful encodes the stored
sequence number wraps from 2^32 − 1 back to 0, so the assigned-number
history is not strictly increasing. -/
theorem C3_counterexample :
    ¬ List.Chain' (· < ·)
      ((runEvents initState
        (List.replicate (2 ^ 32 + 1) (Event.captured [1] 640 480 0))).seq_history) := by
  rw [seqHistory_from_init, countSuccess_replicate]
  intro hch
  rw [List.chain'_iff_get] at hch
  have hlen : ((List.range (2 ^ 32 + 1)).map (fun j => j % 2 ^ 32)).length =
      2 ^ 32 + 1 := by simp
  have h := hch (2 ^ 32 - 1) (by rw [hlen]; omega)
  simp only [List.get_eq_getElem, List.getElem_map, List.getElem_range] at h
  have e1 : 2 ^ 32 - 1 + 1 = 2 ^ 32 := by omega
  rw [e1, Nat.mod_self, Nat.mod_eq_of_lt (by omega : 2 ^ 32 - 1 < 2 ^ 32)] at h
  exact Nat.not_lt_zero _ h

/-- C3 (amended): sequence numbering.  The `uint64_t` counter starts at 0 and
advances exactly once per successfully encoded frame; the value stored in
the frame (and recorded in the history) is the counter truncated to 32 bits,
so the history of assigned sequence numbers over any session is
`0 % 2^32, 1 % 2^32, 2 % 2^32, …` — and for every session with at most 2^32
successful encodes it is exactly `0, 1, 2, …`, strictly increasing with no
gaps.  Encode failures consume no sequence number: they leave both the
counter and the history unchanged. -/
theorem C3_sequence_numbers :
    (∀ es : List Event,
      (runEvents initState es).seq_history =
        (List.range (countSuccess es)).map (fun j => j % 2 ^ 32)) ∧
    (∀ es : List Event, countSuccess es ≤ 2 ^ 32 →
      (runEvents initState es).seq_history = List.range (countSuccess es) ∧
      List.Chain' (· < ·) ((runEvents initState es).seq_history)) ∧
    (∀ (s : GState) (e : Event), isSuccess e = false →
      (captureIter s e).frame_count = s.frame_count ∧
      (captureIter s e).seq_history = s.seq_history) := by
  refine ⟨seqHistory_from_init, ?_, ?_⟩
  · intro es hle
    have hr : (runEvents initState es).seq_history =
        List.range (countSuccess es) := by
      rw [seqHistory_from_init]
      calc (List.range (countSuccess es)).map (fun j => j % 2 ^ 32)
          = (List.range (countSuccess es)).map (fun j => j) := by
            apply List.map_congr_left
            intro j hj
            exact Nat.mod_eq_of_lt (lt_of_lt_of_le (List.mem_range.mp hj) hle)
        _ = List.range (countSuccess es) := List.map_id' _
    refine ⟨hr, ?_⟩
    rw [hr]
    exact (List.pairwise_lt_range _).chain'
  · intro s e hf
    refine ⟨?_, ?_⟩
    · rw [captureIter_frame_count, if_neg (by simp [hf])]
    · rw [captureIter_seq_history, if_neg (by simp [hf])]

theorem C3_sequence_numbers_witness :
    (runEvents initState
        [Event.captured [7] 4 4 0, Event.timeout]).seq_history = [0] ∧
    List.Chain' (· < ·) ((runEvents initState
        [Event.captured [7] 4 4 0, Event.timeout]).seq_history) ∧
    (captureIter initState Event.timeout).frame_count =
      initState.frame_count := by
  have h2 := C3_sequence_numbers.2.1 [Event.captured [7] 4 4 0, Event.timeout]
    (by decide)
  exact ⟨h2.1, h2.2,
    (C3_sequence_numbers.2.2 initState Event.timeout rfl).1⟩

/-- The loop `while (running_) { one iteration }` over a finite trace of
iteration events: the flag is tested at the top of each iteration; when it
is false the loop exits immediately, processing no further event. -/
def captureLoop : GState → List Event → GState
  | s, [] => s
  | s, e :: es => if s.running then captureLoop (captureIter s e) es else s

/-- C7: loop resilience.  (1) No iteration event other than an external stop
request changes the running flag — a timeout, a hard source error or an
encode failure never terminates the loop.  (2) While running and in the
absence of stop requests the loop processes every event of a trace (it
equals the unconditional fold) and is still running afterwards: it never
exits on its own.  (3) Once the stop flag is cleared the loop exits
immediately.  (4) An encode failure leaves the observable store untouched:
in any reachable loop-head state, `get_latest_frame` returns the same frame
before and after the failed iteration.  (5) Timeouts, hard source errors
and missing color frames leave the state completely unchanged, and a stop
request clears the running flag. -/
theorem C7_loop_resilience :
    (∀ (s : GState) (e : Event), e ≠ Event.stopRequest →
      (captureIter s e).running = s.running) ∧
    (∀ (s : GState) (es : List Event), s.running = true →
      (∀ e ∈ es, e ≠ Event.stopRequest) →
      captureLoop s es = runEvents s es ∧ (runEvents s es).running = true) ∧
    (∀ (s : GState) (es : List Event), s.running = false →
      captureLoop s es = s) ∧
    (∀ (s : GState) (w hgt : Int) (ts : Nat), Reachable s → s.pc = PC.top →
      getLatestFrame (captureIter s (Event.captured [] w hgt ts)) =
        getLatestFrame s) ∧
    (∀ s : GState,
      captureIter s Event.timeout = s ∧
      captureIter s Event.sourceError = s ∧
      captureIter s Event.noColorFrame = s ∧
      (captureIter s Event.stopRequest).running = false) := by
  refine ⟨captureIter_running, ?_, ?_, ?_, ?_⟩
  · intro s es
    induction es generalizing s with
    | nil =>
      intro hr _
      exact ⟨rfl, hr⟩
    | cons e es ih =>
      intro hr hall
      have hr' : (captureIter s e).running = true := by
        rw [captureIter_running s e (hall e (by simp))]
        exact hr
      have hrest := ih (captureIter s e) hr' (fun x hx => hall x (by simp [hx]))
      constructor
      · simp only [captureLoop, hr, if_true]
        rw [runEvents_cons]
        exact hrest.1
      · rw [runEvents_cons]
        exact hrest.2
  · intro s es hs
    cases es with
    | nil => rfl
    | cons e es => simp [captureLoop, hs]
  · intro s w hgt ts hreach hpc
    obtain ⟨hwb, hlat, -, -⟩ := reachable_inv hreach
    have hlat' : (captureIter s (Event.captured [] w hgt ts)).latest =
        s.latest := captureIter_latest_fail s w hgt ts
    cases hl : s.latest with
    | none => simp [getLatestFrame, hlat', hl]
    | some j =>
      obtain ⟨hj2, htgt, -, -⟩ := hlat j hl
      rw [hpc] at htgt
      have hne : s.write_buffer ≠ j := by simpa [writeTarget] using htgt
      have hslot : slot (captureIter s (Event.captured [] w hgt ts)) j =
          slot s j := by
        simp only [captureIter, List.isEmpty_nil, if_true]
        rw [slot_setComplete, slot_setFrame_ne _ _ hwb hj2 hne]
      simp [getLatestFrame, hlat', hl, hslot]
  · intro s
    exact ⟨rfl, rfl, rfl, rfl⟩

theorem C7_loop_resilience_witness :
    (captureIter initState Event.timeout).running = initState.running ∧
    captureLoop initState [Event.timeout] =
      runEvents initState [Event.timeout] ∧
    captureLoop {initState with running := false} [Event.timeout] =
      {initState with running := false} ∧
    getLatestFrame (captureIter initState (Event.captured [] 1 1 0)) =
      getLatestFrame initState := by
  refine ⟨C7_loop_resilience.1 initState Event.timeout (by decide), ?_, ?_, ?_⟩
  · exact (C7_loop_resilience.2.1 initState [Event.timeout] rfl (by decide)).1
  · exact C7_loop_resilience.2.2.1 {initState with running := false}
      [Event.timeout] rfl
  · exact C7_loop_resilience.2.2.2.1 initState 1 1 0 Reachable.init rfl

/-- `RGBGrabber::Config` (rgb_grabber.hpp): stream parameters and JPEG
quality; an empty `device_serial` means any device. -/
structure Config where
  width : Int
  height : Int
  fps : Int
  jpeg_quality : Int
  device_serial : String
deriving DecidableEq

/-- The defaults of `RGBGrabber::Config`: 640 × 480 at 30 fps, quality 85,
any device. -/
def defaultConfig : Config := ⟨640, 480, 30, 85, ""⟩

/-- `RGBGrabber::start` (rgb_grabber.cpp lines 35-64).  If `running_` is
already set it returns true immediately.  Otherwise it enables a color
stream with exactly (width, height, RGB8, fps), optionally filtered by the
device serial, and starts the RealSense pipeline; whether the external
device accepts that stream mode is the oracle `accepts`.  When
`pipeline_->start` throws `rs2::error` the exception is caught and start
returns false with the state unchanged (fails closed).  On success
`running_` is set, `start_time_ms_` is reset to the current clock and a
detached capture thread is spawned.  The code never reads `jpeg_quality`
here and performs no validation of any configuration value. -/
def start (s : GState) (cfg : Config)
    (accepts : Int → Int → Int → String → Bool) (now : Nat) : Bool × GState :=
  if s.running then (true, s)
  else if accepts cfg.width cfg.height cfg.fps cfg.device_serial then
    (true, {s with running := true, start_time_ms := now,
                   pipeline_starts := s.pipeline_starts + 1,
                   threads_spawned := s.threads_spawned + 1})
  else (false, s)

/-- `RGBGrabber::stop` (rgb_grabber.cpp lines 66-80): if `running_` is
already false, return immediately; otherwise clear it, sleep 100 ms (time
is not part of the state) and stop the pipeline.  No counter is touched. -/
def stop (s : GState) : GState :=
  if s.running then
    {s with running := false, pipeline_stops := s.pipeline_stops + 1}
  else s

/-- C6 counterexample: the claim — `start` fails with a `StartupError` for
every configuration whose quality exceeds 100 (or with a non-positive
parameter) — is false on the code: `RGBGrabber::start` validates nothing.
With `jpeg_quality = 150` and a device that accepts 640×480@30, `start`
returns true. -/
theorem C6_counterexample :
    (start {initState with running := false}
        ⟨640, 480, 30, 150, ""⟩ (fun _ _ _ _ => true) 0).fst = true ∧
    (⟨640, 480, 30, 150, ""⟩ : Config).jpeg_quality > 100 := by
  constructor
  · rfl
  · decide

/-- C6 (amended): `start` performs no configuration validation.  When the
grabber is not running, `start` succeeds if and only if the external
pipeline accepts the requested stream mode (width, height, fps, device
serial) — it returns false (the startup failure) exactly when the pipeline
cannot be started with that mode — and the `jpeg_quality` value has no
influence on the outcome at all. -/
theorem C6_start_validation :
    ∀ (s : GState) (cfg : Config)
      (accepts : Int → Int → Int → String → Bool) (now : Nat),
      s.running = false →
      (((start s cfg accepts now).fst = true ↔
          accepts cfg.width cfg.height cfg.fps cfg.device_serial = true) ∧
        (∀ q q' : Int,
          start s {cfg with jpeg_quality := q} accepts now =
            start s {cfg with jpeg_quality := q'} accepts now)) := by
  intro s cfg accepts now hr
  constructor
  · by_cases ha : accepts cfg.width cfg.height cfg.fps cfg.device_serial <;>
      simp [start, hr, ha]
  · intro q q'
    rfl

theorem C6_start_validation_witness :
    (start {initState with running := false} defaultConfig
      (fun _ _ _ _ => false) 0).fst = false ∧
    start {initState with running := false} ⟨640, 480, 30, 85, ""⟩
        (fun _ _ _ _ => true) 0 =
      start {initState with running := false} ⟨640, 480, 30, 150, ""⟩
        (fun _ _ _ _ => true) 0 := by
  have h := C6_start_validation {initState with running := false}
    defaultConfig (fun _ _ _ _ => false) 0 rfl
  have h2 := C6_start_validation {initState with running := false}
    ⟨640, 480, 30, 0, ""⟩ (fun _ _ _ _ => true) 0 rfl
  exact ⟨by simpa using h.1, h2.2 85 150⟩

/-- C10: `start` is idempotent while running.  If `running_` is already set,
`start` returns true immediately with the state entirely unchanged: the
pipeline is not reopened (`pipeline_starts` unchanged), no second capture
thread is spawned (`threads_spawned` unchanged), and neither the frame
counter nor the session start time is reset. -/
theorem C10_start_idempotent_while_running :
    ∀ (s : GState) (cfg : Config)
      (accepts : Int → Int → Int → String → Bool) (now : Nat),
      s.running = true → start s cfg accepts now = (true, s) := by
  intro s cfg accepts now hr
  simp [start, hr]

theorem C10_start_idempotent_while_running_witness :
    start initState defaultConfig (fun _ _ _ _ => true) 77 =
      (true, initState) :=
  C10_start_idempotent_while_running initState defaultConfig
    (fun _ _ _ _ => true) 77 rfl

/-- Counters and socket state of one `FramePublisher`
(frame_publisher.hpp): `published_count_` and `dropped_count_` are plain
`uint64_t` members, modelled as `Nat` (a 64-bit counter cannot wrap in any
feasible run); `closed` records that the destructor has closed the
socket. -/
structure PubState where
  published_count : Nat
  dropped_count : Nat
  closed : Bool
deriving DecidableEq

/-- Outcome of the non-blocking `socket_->send(message, dontwait)` call,
decided by the ZMQ transport: `accepted` — the send completed;
`wouldBlock` — it could not complete immediately (outbound queue full, no
ready subscriber), the optional result is empty; `errorThrown` — the
transport raised `zmq::error_t`. -/
inductive SendResult where
  | accepted : SendResult
  | wouldBlock : SendResult
  | errorThrown : SendResult
deriving DecidableEq

/-- `FramePublisher::publish` (frame_publisher.cpp lines 26-70): build the
wire message and attempt a non-blocking send.  On success increment
`published_count_` and return true; if the send would block increment
`dropped_count_` and return false; a thrown `zmq::error_t` — which is what
a send on a closed socket produces — is caught by the handler, which
increments `dropped_count_` and returns false.  No error ever propagates
to the caller. -/
def publish (p : PubState) (res : SendResult) : Bool × PubState :=
  match (if p.closed then SendResult.errorThrown else res) with
  | SendResult.accepted =>
      (true, {p with published_count := p.published_count + 1})
  | SendResult.wouldBlock =>
      (false, {p with dropped_count := p.dropped_count + 1})
  | SendResult.errorThrown =>
      (false, {p with dropped_count := p.dropped_count + 1})

/-- C4: publish contract.  Every call to `publish` either returns true
having incremented `published_count` by exactly one and left
`dropped_count` unchanged, or returns false having incremented
`dropped_count` by exactly one and left `published_count` unchanged —
exactly one of the two counters changes on every call, transport errors are
absorbed (the function is total, never propagating an error), and it
returns true precisely when the socket is open and the non-blocking send
completed. -/
theorem C4_publish_contract :
    ∀ (p : PubState) (res : SendResult),
      (((publish p res).fst = true ∧
          (publish p res).snd =
            {p with published_count := p.published_count + 1}) ∨
        ((publish p res).fst = false ∧
          (publish p res).snd =
            {p with dropped_count := p.dropped_count + 1})) ∧
      ((publish p res).fst = true ↔
        (p.closed = false ∧ res = SendResult.accepted)) := by
  intro p res
  cases hc : p.closed <;> cases res <;> simp [publish, hc]

/-- C8: idempotent shutdown.  Calling `stop` twice equals calling it once —
in particular the second call leaves every counter (captured frame count
included) and the number of pipeline stops exactly as after the first —
`stop` never touches the frame counter, and `publish` after the socket is
closed does not crash: the thrown `zmq::error_t` is caught, the call
returns false and performs only the documented drop accounting
(`dropped_count` up by one, `published_count` untouched). -/
theorem C8_idempotent_shutdown :
    ∀ (s : GState) (p : PubState) (res : SendResult),
      stop (stop s) = stop s ∧
      (stop s).frame_count = s.frame_count ∧
      (p.closed = true →
        publish p res =
          (false, {p with dropped_count := p.dropped_count + 1})) := by
  intro s p res
  refine ⟨?_, ?_, ?_⟩
  · by_cases hr : s.running <;> simp [stop, hr]
  · by_cases hr : s.running <;> simp [stop, hr]
  · intro hc
    simp [publish, hc]

theorem C8_idempotent_shutdown_witness :
    stop (stop initState) = stop initState ∧
    publish ⟨2, 3, true⟩ SendResult.accepted = (false, ⟨2, 4, true⟩) := by
  have h := C8_idempotent_shutdown initState ⟨2, 3, true⟩ SendResult.accepted
  exact ⟨h.1, h.2.2 rfl⟩

/-- Little-endian byte serialization of the low `k` bytes of `n`: the bytes
`std::memcpy` copies from an unsigned integer member of width `k` bytes on
the (little-endian) producing platform. -/
def natLEBytes : Nat → Nat → List Nat
  | 0, _ => []
  | k + 1, n => n % 256 :: natLEBytes k (n / 256)

/-- Read a little-endian byte sequence back as an unsigned integer. -/
def fromLEBytes : List Nat → Nat
  | [] => 0
  | b :: bs => b + 256 * fromLEBytes bs

/-- The 4 bytes `std::memcpy` copies from a C++ `int` member (32-bit two's
complement, little-endian): the bytes of the value reduced modulo 2^32. -/
def int32Bytes (x : Int) : List Nat :=
  natLEBytes 4 (x % (2 ^ 32 : Int)).toNat

/-- The wire message built by `FramePublisher::publish`
(frame_publisher.cpp lines 28-55): 4 bytes `width`, 4 bytes `height`,
8 bytes `timestamp_ms`, 4 bytes `frame_number`, then the JPEG payload —
total 20 + N bytes. -/
def serializeFrame (f : RGBFrame) : List Nat :=
  int32Bytes f.width ++ (int32Bytes f.height ++
    (natLEBytes 8 f.timestamp_ms ++ (natLEBytes 4 f.frame_number ++ f.data)))

/-- A parsed wire message; all header fields are unsigned per the wire
format. -/
structure ParsedMsg where
  width : Nat
  height : Nat
  timestamp_ms : Nat
  sequence_number : Nat
  payload : List Nat
deriving DecidableEq

/-- Modelled from the spec: the consumer-side parse of a wire message per
the byte layout of spec section 6 — the repository contains no consumer —
width at offset 0 (4 bytes), height at offset 4 (4 bytes), timestamp at
offset 8 (8 bytes), sequence number at offset 16 (4 bytes), payload from
offset 20, its length N determined as the message length minus 20. -/
def parsePerSpec (msg : List Nat) : Option ParsedMsg :=
  if 20 ≤ msg.length then
    some ⟨fromLEBytes (msg.take 4), fromLEBytes ((msg.drop 4).take 4),
          fromLEBytes ((msg.drop 8).take 8), fromLEBytes ((msg.drop 16).take 4),
          msg.drop 20⟩
  else none

theorem natLEBytes_length (k n : Nat) : (natLEBytes k n).length = k := by
  induction k generalizing n with
  | zero => rfl
  | succ k ih => simp [natLEBytes, ih]

theorem fromLEBytes_natLEBytes (k n : Nat) :
    fromLEBytes (natLEBytes k n) = n % 256 ^ k := by
  induction k generalizing n with
  | zero => simp [natLEBytes, fromLEBytes, Nat.mod_one]
  | succ k ih =>
    rw [natLEBytes, fromLEBytes, ih, pow_succ', Nat.mod_mul]

theorem fromLE_natLE_of_lt {k n : Nat} (h : n < 256 ^ k) :
    fromLEBytes (natLEBytes k n) = n := by
  rw [fromLEBytes_natLEBytes, Nat.mod_eq_of_lt h]

/-- C5: wire round-trip.  For every frame whose fields fit the wire-format
field widths (width and height nonnegative below 2^32, timestamp below
2^64, sequence number below 2^32 — the ranges of the unsigned wire fields):
the serialized message is exactly 20 + N bytes long (N the payload length),
and parsing it per the byte layout of spec section 6 reconstructs field
values identical to the frame's and a byte-identical pixel payload. -/
theorem C5_wire_roundtrip :
    ∀ f : RGBFrame, 0 ≤ f.width → f.width < 2 ^ 32 →
      0 ≤ f.height → f.height < 2 ^ 32 →
      f.timestamp_ms < 2 ^ 64 → f.frame_number < 2 ^ 32 →
      (serializeFrame f).length = 20 + f.data.length ∧
      parsePerSpec (serializeFrame f) =
        some ⟨f.width.toNat, f.height.toNat, f.timestamp_ms,
              f.frame_number, f.data⟩ := by
  intro f hw0 hw hh0 hh hts hn
  have lenW : (int32Bytes f.width).length = 4 := natLEBytes_length 4 _
  have lenH : (int32Bytes f.height).length = 4 := natLEBytes_length 4 _
  have lenT : (natLEBytes 8 f.timestamp_ms).length = 8 := natLEBytes_length 8 _
  have lenN : (natLEBytes 4 f.frame_number).length = 4 := natLEBytes_length 4 _
  have hlen : (serializeFrame f).length = 20 + f.data.length := by
    simp [serializeFrame, lenW, lenH, lenT, lenN]
    omega
  refine ⟨hlen, ?_⟩
  have hdrop4 : (serializeFrame f).drop 4 =
      int32Bytes f.height ++
        (natLEBytes 8 f.timestamp_ms ++
          (natLEBytes 4 f.frame_number ++ f.data)) := by
    rw [serializeFrame, List.drop_left' lenW]
  have hdrop8 : (serializeFrame f).drop 8 =
      natLEBytes 8 f.timestamp_ms ++ (natLEBytes 4 f.frame_number ++ f.data) := by
    have h : (serializeFrame f).drop 8 = ((serializeFrame f).drop 4).drop 4 := by
      rw [List.drop_drop]
    rw [h, hdrop4, List.drop_left' lenH]
  have hdrop16 : (serializeFrame f).drop 16 =
      natLEBytes 4 f.frame_number ++ f.data := by
    have h : (serializeFrame f).drop 16 = ((serializeFrame f).drop 8).drop 8 := by
      rw [List.drop_drop]
    rw [h, hdrop8, List.drop_left' lenT]
  have hdrop20 : (serializeFrame f).drop 20 = f.data := by
    have h : (serializeFrame f).drop 20 = ((serializeFrame f).drop 16).drop 4 := by
      rw [List.drop_drop]
    rw [h, hdrop16, List.drop_left' lenN]
  have htake : (serializeFrame f).take 4 = int32Bytes f.width := by
    rw [serializeFrame, List.take_left' lenW]
  have hvW : fromLEBytes (int32Bytes f.width) = f.width.toNat := by
    rw [int32Bytes, Int.emod_eq_of_lt hw0 hw]
    exact fromLE_natLE_of_lt (by norm_num; omega)
  have hvH : fromLEBytes (int32Bytes f.height) = f.height.toNat := by
    rw [int32Bytes, Int.emod_eq_of_lt hh0 hh]
    exact fromLE_natLE_of_lt (by norm_num; omega)
  have hvT : fromLEBytes (natLEBytes 8 f.timestamp_ms) = f.timestamp_ms :=
    fromLE_natLE_of_lt (by norm_num; omega)
  have hvN : fromLEBytes (natLEBytes 4 f.frame_number) = f.frame_number :=
    fromLE_natLE_of_lt (by norm_num; omega)
  rw [parsePerSpec, if_pos (by rw [hlen]; omega)]
  rw [htake, hdrop4, hdrop8, hdrop16, hdrop20,
    List.take_left' lenH, List.take_left' lenT, List.take_left' lenN,
    hvW, hvH, hvT, hvN]

theorem C5_wire_roundtrip_witness :
    parsePerSpec (serializeFrame ⟨[9, 8, 7], 640, 480, 123456789, 42⟩) =
      some ⟨640, 480, 123456789, 42, [9, 8, 7]⟩ ∧
    (serializeFrame ⟨[9, 8, 7], 640, 480, 123456789, 42⟩).length = 23 := by
  have h := C5_wire_roundtrip ⟨[9, 8, 7], 640, 480, 123456789, 42⟩
    (by decide) (by decide) (by decide) (by decide) (by decide) (by decide)
  exact ⟨h.2, h.1⟩

/-- A C++ data-member declaration: its name, the declared type, and whether
that type is a `std::atomic` specialization. -/
structure MemberDecl where
  name : String
  typeName : String
  atomic : Bool
deriving DecidableEq

/-- The data members of `FramePublisher` exactly as declared in
frame_publisher.hpp lines 27-32: the two counters are plain `uint64_t`, not
`std::atomic`, and the class has no mutex or other synchronization
member. -/
def framePublisherMembers : List MemberDecl :=
  [⟨"config_", "Config", false⟩,
   ⟨"context_", "std::unique_ptr<zmq::context_t>", false⟩,
   ⟨"socket_", "std::unique_ptr<zmq::socket_t>", false⟩,
   ⟨"published_count_", "uint64_t", false⟩,
   ⟨"dropped_count_", "uint64_t", false⟩]

/-- The data members of `RGBGrabber` as declared in rgb_grabber.hpp lines
44-57: the cross-thread flag, frame counter, latest pointer and buffer
index are all `std::atomic` (the author used atomics where sharing was
intended). -/
def rgbGrabberMembers : List MemberDecl :=
  [⟨"config_", "Config", false⟩,
   ⟨"pipeline_", "std::unique_ptr<rs2::pipeline>", false⟩,
   ⟨"running_", "std::atomic<bool>", true⟩,
   ⟨"frame_count_", "std::atomic<uint64_t>", true⟩,
   ⟨"latest_frame_", "std::atomic<RGBFrame*>", true⟩,
   ⟨"frame_buffer_", "RGBFrame[2]", false⟩,
   ⟨"write_buffer_", "std::atomic<int>", true⟩,
   ⟨"start_time_ms_", "uint64_t", false⟩]

/-- Whether a class declares the named data member with a `std::atomic`
type. -/
def declaredAtomic (ms : List MemberDecl) (n : String) : Bool :=
  ms.any (fun m => m.name == n && m.atomic)

/-- Whether a class declares the named data member at all. -/
def declaresMember (ms : List MemberDecl) (n : String) : Bool :=
  ms.any (fun m => m.name == n)

/-- C9 (refuted — code bug): the claim requires the increments of
`published_count_` and `dropped_count_` to be atomic or otherwise
synchronized so another thread can read them safely; but the members exist
as plain `uint64_t` with no `std::atomic` and the class holds no lock,
while `RGBGrabber`'s own shared counter `frame_count_` is `std::atomic` —
and main.cpp's stats thread does read the publisher counters concurrently
with `publish`, which is a data race. -/
theorem C9_counters_not_atomic :
    declaresMember framePublisherMembers "published_count_" = true ∧
    declaresMember framePublisherMembers "dropped_count_" = true ∧
    declaredAtomic framePublisherMembers "published_count_" = false ∧
    declaredAtomic framePublisherMembers "dropped_count_" = false ∧
    declaredAtomic rgbGrabberMembers "frame_count_" = true := by
  decide

end MdaiRGB
